import Mathlib

/-!
A shallow embedding of the GGUF container codec of `src/mlx/io/gguf.cpp`
(the mlx repository), together with theorems that settle the claims of the
natural-language specification against the code.

Conventions of the embedding:
* machine bytes are `Nat` values below 256, buffers are `List Nat` (byte
  lists) or, while a C loop mutates them in place, functions `Nat → Nat`;
* C++ functions that can throw return `Except String _`, the string being
  the exception message;
* the external `gguflib` C library (cursor mechanics, `gguf_tensor_to_f16`,
  the alignment-padding macro) is out of scope of the repository; where a
  claim's meaning depends on one of its values the value is injected as a
  parameter (`ExtEnv`) or modelled from the spec, as noted at the
  definition.
-/

namespace MlxGguf

/-- The host element types (`Dtype` of mlx). A closed enumeration; the codec
only inspects the tag and the byte width. -/
inductive Dtype where
  | bool_
  | uint8
  | uint16
  | uint32
  | uint64
  | int8
  | int16
  | int32
  | int64
  | float16
  | float32
  | bfloat16
  | complex64
deriving DecidableEq, Repr

/-- Byte width of each host element type (`Dtype::size` in mlx). -/
def Dtype.size : Dtype → Nat
  | .bool_ => 1
  | .uint8 => 1
  | .uint16 => 2
  | .uint32 => 4
  | .uint64 => 8
  | .int8 => 1
  | .int16 => 2
  | .int32 => 4
  | .int64 => 8
  | .float16 => 2
  | .float32 => 4
  | .bfloat16 => 2
  | .complex64 => 8

/-- The on-disk tensor type codes of gguflib (`GGUF_TYPE_*`).  Only the codes
the source mentions get their own constructor; every other code is `other`. -/
inductive GgufTensorType where
  | F32
  | F16
  | Q4_0
  | Q4_1
  | Q8_0
  | I8
  | I16
  | I32
  | other (code : Nat)
deriving DecidableEq, Repr

/-- The on-disk metadata value type tags of gguflib (`GGUF_VALUE_TYPE_*`). -/
inductive GgufValueType where
  | UINT8
  | INT8
  | UINT16
  | INT16
  | UINT32
  | INT32
  | FLOAT32
  | BOOL
  | STRING
  | ARRAY
  | UINT64
  | INT64
  | FLOAT64
deriving DecidableEq, Repr

/-- `dtype_to_gguf_tensor_type` (gguf.cpp lines 21-36): the outbound partial
map from host dtypes to on-disk tensor type codes. -/
def dtype_to_gguf_tensor_type : Dtype → Option GgufTensorType
  | .float32 => some .F32
  | .float16 => some .F16
  | .int8 => some .I8
  | .int16 => some .I16
  | .int32 => some .I32
  | _ => none

/-- `gguf_type_to_dtype` (gguf.cpp lines 38-53): the inbound partial map from
on-disk tensor type codes to host dtypes. -/
def gguf_type_to_dtype : GgufTensorType → Option Dtype
  | .F32 => some .float32
  | .F16 => some .float16
  | .I8 => some .int8
  | .I16 => some .int16
  | .I32 => some .int32
  | _ => none

/-- A host tensor (mlx `array`): dtype, host-order shape, contiguous bytes.
The claims only involve tensors that are already row-contiguous, which is
what the writer enforces before touching bytes. -/
structure Tensor where
  dtype : Dtype
  shape : List Nat
  data : List Nat
deriving DecidableEq, Repr

/-- Element count of a tensor (product of the dims; 1 for a 0-dim tensor). -/
def Tensor.numel (t : Tensor) : Nat := t.shape.prod

/-- `array::nbytes()`: element count times element width. -/
def Tensor.nbytes (t : Tensor) : Nat := t.numel * t.dtype.size

/-- The metadata value (`MetaData` variant of mlx io: monostate, array,
string, vector of strings).  `io.h` as given declares only the first three
alternatives, but gguf.cpp assigns and reads `std::vector<std::string>`
values as well, matching the four-alternative variant of the spec. -/
inductive MetaData where
  | empty
  | tensor (t : Tensor)
  | str (s : String)
  | strList (l : List String)
deriving DecidableEq, Repr

/-- An on-disk metadata value as the decoder accesses it through the
`gguf_value` union: a numeric/bool scalar (payload bytes elided — only their
width, fixed by the type tag, matters to any claim), a length-prefixed
string, or a one-level array.  For an array of strings the parsed strings
are carried (`strs`); for a numeric array only the declared length matters. -/
inductive GgufValue where
  | vnum
  | vstr (s : String)
  | varr (itype : GgufValueType) (len : Nat) (strs : List String)
deriving DecidableEq, Repr

/-- The host dtype the scalar branches of `set_mx_value_from_gguf`
(gguf.cpp lines 94-130, 140-183) assign to each numeric tag: each integer
tag maps to the same-named host dtype, BOOL to `bool_`, and FLOAT64 is
downcast to `float32`. STRING and ARRAY are not numeric tags. -/
def scalar_mx_dtype : GgufValueType → Option Dtype
  | .UINT8 => some .uint8
  | .INT8 => some .int8
  | .UINT16 => some .uint16
  | .INT16 => some .int16
  | .UINT32 => some .uint32
  | .INT32 => some .int32
  | .UINT64 => some .uint64
  | .INT64 => some .int64
  | .FLOAT32 => some .float32
  | .BOOL => some .bool_
  | .FLOAT64 => some .float32
  | .STRING => none
  | .ARRAY => none

/-- `gguf_array_header_size` (gguf.cpp line 19). -/
def gguf_array_header_size : Nat := 12

/-- `sizeof(gguf_string)`: the 8-byte length prefix of an on-disk string. -/
def gguf_string_header_size : Nat := 8

/-- `set_mx_value_from_gguf` (gguf.cpp lines 88-199), returning the decoded
`MetaData` together with the number of bytes the function adds to the
section cursor `ctx->off`.  The cursor bookkeeping of the source: the array
branch adds the 12-byte header up front and, for a string array, 8+len per
string while walking; the trailing lines 194-198 add 8+len for a scalar
string and `pv->nbytes()` (host byte size!) whenever the decoded value is an
mlx array.  Payload bytes of numeric values are elided (zero placeholder
data); no claim inspects them. -/
def set_mx_value_from_gguf : GgufValueType → GgufValue → Except String (MetaData × Nat)
  | .STRING, .vstr s => .ok (.str s, gguf_string_header_size + s.length)
  | .ARRAY, .varr itype len strs =>
    if itype = .ARRAY then
      .error ("[load_gguf] Only supports loading 1-layer of nested arrays.")
    else
      match itype with
      | .STRING =>
        let decoded := strs.take len
        .ok (.strList decoded,
          gguf_array_header_size +
            (decoded.map (fun s => gguf_string_header_size + s.length)).sum)
      | _ =>
        match scalar_mx_dtype itype with
        | some d =>
          .ok (.tensor ⟨d, [len], List.replicate (len * d.size) 0⟩,
            gguf_array_header_size + len * d.size)
        | none =>
          .error ("[load_gguf] Multiple levels of nested arrays are not supported.")
  | ty, .vnum =>
    match scalar_mx_dtype ty with
    | some d => .ok (.tensor ⟨d, [], List.replicate d.size 0⟩, d.size)
    | none => .error ("[load_gguf] Received unexpected type.")
  | _, _ => .error ("[load_gguf] Received unexpected type.")

/-- Modelled from the spec: the fixed on-disk width of each scalar metadata
type tag of the container format (spec sections 4.2 and 6); STRING and ARRAY
values are not fixed-width. -/
def gguf_value_type_disk_size : GgufValueType → Option Nat
  | .UINT8 => some 1
  | .INT8 => some 1
  | .UINT16 => some 2
  | .INT16 => some 2
  | .UINT32 => some 4
  | .INT32 => some 4
  | .UINT64 => some 8
  | .INT64 => some 8
  | .FLOAT32 => some 4
  | .BOOL => some 1
  | .FLOAT64 => some 8
  | .STRING => none
  | .ARRAY => none

/-- Modelled from the spec: the number of bytes a metadata value occupies on
disk (spec sections 4.2 and 6) — header-exclusive for numeric scalars and
numeric arrays (the type tag and key are accounted elsewhere), and
header-inclusive for strings (8-byte length prefix plus content) and string
arrays (12-byte array header plus length-prefixed strings).  `none` for the
ill-formed cases the format does not produce. -/
def gguf_value_disk_size : GgufValueType → GgufValue → Option Nat
  | .STRING, .vstr s => some (gguf_string_header_size + s.length)
  | .ARRAY, .varr itype len strs =>
    match itype with
    | .ARRAY => none
    | .STRING =>
      if strs.length = len then
        some (gguf_array_header_size +
          (strs.map (fun s => gguf_string_header_size + s.length)).sum)
      else none
    | _ =>
      (gguf_value_type_disk_size itype).map (fun w => gguf_array_header_size + len * w)
  | ty, .vnum => gguf_value_type_disk_size ty
  | _, _ => none

/-- `load_metadata` (gguf.cpp lines 201-210): decode each key's value in
order; the section's on-disk key records are modelled as the list of
(key, type tag, value) triples the gguflib cursor yields. -/
def load_metadata : List (String × GgufValueType × GgufValue) →
    Except String (List (String × MetaData))
  | [] => .ok []
  | (k, ty, v) :: rest => do
    let r ← set_mx_value_from_gguf ty v
    let tail ← load_metadata rest
    .ok ((k, r.1) :: tail)

/-- An on-disk tensor as the gguflib cursor hands it to the reader
(`gguf_tensor`): stored name, dims in file order (`dim[0]` first, the
fastest-varying dimension), type code, element count (the product of the
dims, as gguflib computes it), total byte size, and the raw bytes of the
tensor's slice of the data section. -/
structure GgufTensor where
  name : String
  dim : List Nat
  type : GgufTensorType
  num_weights : Nat
  bsize : Nat
  weights_data : List Nat
deriving DecidableEq, Repr

/-- The index-reversal loop shared by `get_shape` (gguf.cpp lines 55-62,
which pushes `dim[i]` for `i` from `ndim-1` down to 0) and the descriptor
write of `save_gguf` (lines 571-574, `dim[i] = shape[num_dim - 1 - i]`):
entry `i` of the result is entry `length - 1 - i` of the input. -/
def rev_index_map (l : List Nat) : List Nat :=
  (List.range l.length).map (fun i => l.getD (l.length - 1 - i) 0)

/-- `get_shape` (gguf.cpp lines 55-62): the host shape is the file-order
dims reversed. -/
def get_shape (t : GgufTensor) : List Nat := rev_index_map t.dim

/-- The dim array `save_gguf` writes into a tensor descriptor
(gguf.cpp lines 570-574): the host shape reversed. -/
def save_dims (shape : List Nat) : List Nat := rev_index_map shape

/-- The external environment of a load call: the two effects the codec takes
from outside the repository.  `conv` is gguflib's `gguf_tensor_to_f16`
(its result is an input of the model; `none` models a NULL return) and
`mallocByte` gives the contents of freshly `malloc`ed — uninitialized —
buffer bytes. -/
structure ExtEnv where
  conv : GgufTensor → Option (List Nat)
  mallocByte : Nat → Nat

/-- `extract_tensor_data` (gguf.cpp lines 64-86): if the on-disk type code
maps to a host dtype, memcpy `num_weights * dtype.size` bytes verbatim;
otherwise call `gguf_tensor_to_f16`, throw if it returns NULL, and copy
`num_weights * 2` bytes of the converted buffer, tagging the result
`float16`. -/
def extract_tensor_data (env : ExtEnv) (t : GgufTensor) :
    Except String (List Nat × Dtype) :=
  match gguf_type_to_dtype t.type with
  | some d => .ok (t.weights_data.take (t.num_weights * d.size), d)
  | none =>
    match env.conv t with
    | none => .error ("[load_gguf] gguf_tensor_to_f16 failed")
    | some converted => .ok (converted.take (t.num_weights * 2), .float16)

/-- The reserved weight suffix (gguf.cpp line 355). -/
def weight_suffix : String := ".weight"

/-- `ends_with_weight` (gguf.cpp lines 356-359): the stored name is strictly
longer than ".weight" and its last seven characters are ".weight". -/
def ends_with_weight (name : String) : Bool :=
  decide (weight_suffix.data.length < name.data.length) &&
  decide (name.data.drop (name.data.length - weight_suffix.data.length) =
    weight_suffix.data)

/-- The four ways the tensor loop of the reader (gguf.cpp lines 352-371)
can dispatch one descriptor. -/
inductive LoadPath where
  | q4_0
  | q4_1
  | q8_0
  | generic
deriving DecidableEq, Repr

/-- The dispatch of the reader's tensor loop (gguf.cpp lines 352-371): a
known quantization type code together with the reserved name suffix selects
the matching block extractor; everything else goes to
`extract_tensor_data`. -/
def classify_tensor (name : String) (ty : GgufTensorType) : LoadPath :=
  if ends_with_weight name && decide (ty = .Q4_0) then .q4_0
  else if ends_with_weight name && decide (ty = .Q4_1) then .q4_1
  else if ends_with_weight name && decide (ty = .Q8_0) then .q8_0
  else .generic

/-- Whether a dispatch outcome is one of the quantized block extractors. -/
def LoadPath.isQuant : LoadPath → Bool
  | .q4_0 => true
  | .q4_1 => true
  | .q8_0 => true
  | .generic => false

/-- Pointwise update of a buffer modelled as a function (one C store). -/
def upd (f : Nat → Nat) (k v : Nat) : Nat → Nat :=
  fun x => if x = k then v else f x

/-- Little-endian 16-bit load (`*(float16_t*)p` reads two bytes and these
are the bit pattern of the half-precision value). -/
def read_u16le (data : List Nat) (off : Nat) : Nat :=
  data.getD off 0 + 256 * data.getD (off + 1) 0

/-- Sign bit of a float16 bit pattern. -/
def fp16_sign (b : Nat) : Nat := b / 2 ^ 15 % 2

/-- Exponent field of a float16 bit pattern. -/
def fp16_exp (b : Nat) : Nat := b / 2 ^ 10 % 32

/-- Fraction field of a float16 bit pattern. -/
def fp16_frac (b : Nat) : Nat := b % 2 ^ 10

/-- The exact rational value of a finite float16 bit pattern (subnormals
included).  Bit patterns with exponent field 31 encode infinities and NaNs
and have no rational value; theorems that speak about values exclude them by
hypothesis. -/
def fp16_to_rat (b : Nat) : ℚ :=
  let mag : ℚ :=
    if fp16_exp b = 0 then (fp16_frac b : ℚ) / 2 ^ 24
    else ((2 ^ 10 + fp16_frac b : Nat) : ℚ) * 2 ^ fp16_exp b / 2 ^ 25
  if fp16_sign b = 1 then -mag else mag

/-- The float16 bit pattern of `-128 * x` for a float16 `x`, as the C
statement `biases[i] = -128 * scales[i];` (gguf.cpp line 312) computes it:
the product is formed exactly (multiplying by -2^7 only flips the sign and
shifts the exponent) and converted back to float16, overflowing to infinity
when the shifted exponent leaves the finite range.  For a subnormal input
the product `m * 128 * 2^-24` is renormalized (exactly — the significand is
a multiple of 2^7). -/
def fp16_mul_neg128 (b : Nat) : Nat :=
  let s := fp16_sign b
  let e := fp16_exp b
  let m := fp16_frac b
  let s' := 1 - s
  if e = 31 then s' * 2 ^ 15 + 31 * 2 ^ 10 + m
  else if e = 0 then
    if m * 128 < 2 ^ 10 then s' * 2 ^ 15 + m * 128
    else
      let l := Nat.log2 (m * 128)
      s' * 2 ^ 15 + (l - 9) * 2 ^ 10 + (m * 128 / 2 ^ (l - 10) - 2 ^ 10)
  else if 24 ≤ e then s' * 2 ^ 15 + 31 * 2 ^ 10
  else s' * 2 ^ 15 + (e + 7) * 2 ^ 10 + m

/-- The three buffers a quantized block extractor fills: the packed weight
bytes, and the per-block scale and bias float16 bit patterns.  Modelled as
functions because the C loops mutate them in place. -/
structure QuantOut where
  weights : Nat → Nat
  scales : Nat → Nat
  biases : Nat → Nat

/-- One iteration of the weight loop of `extract_q8_0_data`
(gguf.cpp lines 313-319): read byte `j+2` of block `i` (skipping the two
scale bytes), flip its top bit (`x ^= 1 << 7`), store it at weight index
`i*32 + j`. -/
def q8_wstep (data : List Nat) (i : Nat) (acc : QuantOut) (j : Nat) : QuantOut :=
  { acc with weights := upd acc.weights (32 * i + j) ((data.getD (34 * i + j + 2) 0) ^^^ 128) }

/-- One iteration of the block loop of `extract_q8_0_data`
(gguf.cpp lines 309-320): `scales[i]` is the half-precision load at the
block start, `biases[i] = -128 * scales[i]` (reading the scale just
stored), then the 32 weight bytes. -/
def q8_block (data : List Nat) (st : QuantOut) (i : Nat) : QuantOut :=
  let sc := read_u16le data (34 * i)
  (List.range 32).foldl (q8_wstep data i)
    { st with
      scales := upd st.scales i sc,
      biases := upd st.biases i (fp16_mul_neg128 sc) }

/-- The block loop of `extract_q8_0_data` over `num_blocks` blocks, started
from the (uninitialized) buffers `init`. -/
def extract_q8_0_core (data : List Nat) (nb : Nat) (init : QuantOut) : QuantOut :=
  (List.range nb).foldl (q8_block data) init

/-- `extract_q8_0_data` (gguf.cpp lines 286-320, through the end of the
block loop): reject a tensor whose last host-order dimension (= fastest
file-order dimension) is not a multiple of 32, otherwise run the block loop
on `num_weights / 32` 34-byte blocks. -/
def extract_q8_0_data (init : QuantOut) (t : GgufTensor) : Except String QuantOut :=
  if (get_shape t).getD ((get_shape t).length - 1) 0 % 32 ≠ 0 then
    .error ("[load_gguf] tensor " ++ t.name ++ "has incompatible last dim shape")
  else
    .ok (extract_q8_0_core t.weights_data (t.num_weights / 32) init)

/-- One iteration of the first (low-nibble) weight loop of
`extract_q4_1_data` (gguf.cpp lines 243-250): take the low nibble of byte
`j+4` of block `i` (skipping scale and bias bytes), shift it into the high
nibble when `j` is odd (a `uint8_t` shift, hence the mod 256), and
accumulate it — `+=`, not `=` — into weight byte `i*16 + j/2`. -/
def q4_wstep_low (data : List Nat) (i : Nat) (acc : QuantOut) (j : Nat) : QuantOut :=
  QuantOut.mk
    (upd acc.weights (16 * i + j / 2)
      ((acc.weights (16 * i + j / 2) +
        (if j % 2 ≠ 0 then data.getD (20 * i + j + 4) 0 % 16 * 16 % 256
         else data.getD (20 * i + j + 4) 0 % 16)) % 256))
    acc.scales acc.biases

/-- One iteration of the second (high-nibble) weight loop of
`extract_q4_1_data` (gguf.cpp lines 252-258): the same with the high nibble
of byte `j+4`, accumulated into weight byte `i*16 + 8 + j/2`. -/
def q4_wstep_high (data : List Nat) (i : Nat) (acc : QuantOut) (j : Nat) : QuantOut :=
  QuantOut.mk
    (upd acc.weights (16 * i + 8 + j / 2)
      ((acc.weights (16 * i + 8 + j / 2) +
        (if j % 2 ≠ 0 then data.getD (20 * i + j + 4) 0 / 16 * 16 % 256
         else data.getD (20 * i + j + 4) 0 / 16)) % 256))
    acc.scales acc.biases

/-- One iteration of the block loop of `extract_q4_1_data`
(gguf.cpp lines 238-259): `scales[i]` and `biases[i]` are the two leading
half-precision loads of the 20-byte block, then the two 16-iteration weight
loops. -/
def q4_1_block (data : List Nat) (st : QuantOut) (i : Nat) : QuantOut :=
  let st :=
    { st with
      scales := upd st.scales i (read_u16le data (20 * i)),
      biases := upd st.biases i (read_u16le data (20 * i + 2)) }
  let st := (List.range 16).foldl (q4_wstep_low data i) st
  (List.range 16).foldl (q4_wstep_high data i) st

/-- The block loop of `extract_q4_1_data` over `num_blocks` blocks, started
from the (uninitialized) buffers `init`. -/
def extract_q4_1_core (data : List Nat) (nb : Nat) (init : QuantOut) : QuantOut :=
  (List.range nb).foldl (q4_1_block data) init

/-- `extract_q4_1_data` (gguf.cpp lines 214-259, through the end of the
block loop): reject a tensor whose last host-order dimension is not a
multiple of 32, otherwise run the block loop on `num_weights / 32` 20-byte
blocks. -/
def extract_q4_1_data (init : QuantOut) (t : GgufTensor) : Except String QuantOut :=
  if (get_shape t).getD ((get_shape t).length - 1) 0 % 32 ≠ 0 then
    .error ("[load_gguf] tensor " ++ t.name ++ "has incompatible last dim shape")
  else
    .ok (extract_q4_1_core t.weights_data (t.num_weights / 32) init)

/-- Materialize `n` bytes of a buffer-as-function into a byte list. -/
def byte_buffer (f : Nat → Nat) (n : Nat) : List Nat :=
  (List.range n).map f

/-- Materialize `nb` float16 bit patterns into their little-endian bytes. -/
def f16_buffer (f : Nat → Nat) (nb : Nat) : List Nat :=
  (List.range nb).foldr (fun i acc => f i % 256 :: f i / 256 % 256 :: acc) []

/-- The stored name minus the trailing ".weight"
(`name.substr(0, name.length() - weight_suffix.length())`). -/
def weight_name_stem (name : String) : String :=
  String.mk (name.data.take (name.data.length - weight_suffix.data.length))

/-- The three map entries `extract_q8_0_data` inserts (gguf.cpp lines
321-339): the packed weights under the original name as a `uint32` tensor
whose last dimension is divided by `weights_per_byte * 4 = 4`, and the
scales and biases as `float16` tensors whose last dimension is divided by
32, named by the stem plus ".scales" / ".biases". -/
def q8_0_entries (t : GgufTensor) (out : QuantOut) : List (String × Tensor) :=
  let shape := get_shape t
  let nb := t.num_weights / 32
  let weights_shape :=
    shape.set (shape.length - 1) (shape.getD (shape.length - 1) 0 / 1 / 4)
  let scale_bias_shape :=
    shape.set (shape.length - 1) (shape.getD (shape.length - 1) 0 / 32)
  let stem := weight_name_stem t.name
  [(t.name, ⟨.uint32, weights_shape, byte_buffer out.weights (t.num_weights / 1)⟩),
   (stem ++ ".scales", ⟨.float16, scale_bias_shape, f16_buffer out.scales nb⟩),
   (stem ++ ".biases", ⟨.float16, scale_bias_shape, f16_buffer out.biases nb⟩)]

/-- The three map entries `extract_q4_1_data` inserts (gguf.cpp lines
260-278): as for q8_0, but the packed-weight byte count and last dimension
use `weights_per_byte = 2`. -/
def q4_1_entries (t : GgufTensor) (out : QuantOut) : List (String × Tensor) :=
  let shape := get_shape t
  let nb := t.num_weights / 32
  let weights_shape :=
    shape.set (shape.length - 1) (shape.getD (shape.length - 1) 0 / 2 / 4)
  let scale_bias_shape :=
    shape.set (shape.length - 1) (shape.getD (shape.length - 1) 0 / 32)
  let stem := weight_name_stem t.name
  [(t.name, ⟨.uint32, weights_shape, byte_buffer out.weights (t.num_weights / 2)⟩),
   (stem ++ ".scales", ⟨.float16, scale_bias_shape, f16_buffer out.scales nb⟩),
   (stem ++ ".biases", ⟨.float16, scale_bias_shape, f16_buffer out.biases nb⟩)]

/-- The fresh, uninitialized `QuantOut` buffers a load call `malloc`s. -/
def ExtEnv.freshBuffers (env : ExtEnv) : QuantOut :=
  ⟨env.mallocByte, env.mallocByte, env.mallocByte⟩

/-- The body of the reader's tensor loop for one descriptor
(gguf.cpp lines 352-370).  The `Q4_0` branch calls `extract_q4_0_data`,
which is absent from the source (a leftover of the incompletely merged code
path the spec's section 9 records); it is modelled as the error it cannot
avoid raising at link/compile time.  The generic branch builds one tensor
from `extract_tensor_data` with the reversed shape. -/
def load_one_tensor (env : ExtEnv) (t : GgufTensor) : Except String (List (String × Tensor)) :=
  match classify_tensor t.name t.type with
  | .q4_0 => .error ("[load_gguf] extract_q4_0_data is not defined in the source")
  | .q4_1 => (extract_q4_1_data env.freshBuffers t).map (q4_1_entries t)
  | .q8_0 => (extract_q8_0_data env.freshBuffers t).map (q8_0_entries t)
  | .generic =>
    (extract_tensor_data env t).map (fun r => [(t.name, ⟨r.2, get_shape t, r.1⟩)])

/-- `load_arrays` (the tensor loop, gguf.cpp lines 352-371): decode every
descriptor in order, collecting the inserted entries. -/
def load_arrays (env : ExtEnv) : List GgufTensor → Except String (List (String × Tensor))
  | [] => .ok []
  | t :: rest => do
    let entries ← load_one_tensor env t
    let tail ← load_arrays env rest
    .ok (entries ++ tail)

/-- A container file as the gguflib cursor presents it: the metadata key
records, then the tensor descriptors (each already paired with its slice of
the data section). -/
structure GgufFile where
  metadata : List (String × GgufValueType × GgufValue)
  tensors : List GgufTensor
deriving DecidableEq, Repr

/-- `load_gguf` (gguf.cpp lines 378-387): open, decode metadata, decode
tensors, close, return both maps. -/
def load_gguf_model (env : ExtEnv) (f : GgufFile) :
    Except String (List (String × Tensor) × List (String × MetaData)) := do
  let metadata ← load_metadata f.metadata
  let arrays ← load_arrays env f.tensors
  .ok (arrays, metadata)

/-- Whether the `gguf_close(ctx)` call of `load_gguf` (gguf.cpp line 385) is
reached: it is the last statement before the return, so an exception thrown
by `load_metadata` or `load_arrays` propagates to the caller before it can
run — there is no RAII guard or catch block around it. -/
def load_gguf_reaches_close (env : ExtEnv) (f : GgufFile) : Bool :=
  match load_metadata f.metadata with
  | .error _ => false
  | .ok _ =>
    match load_arrays env f.tensors with
    | .error _ => false
    | .ok _ => true

/-- Modelled from the spec: the text `operator<<` prints for a dtype (the
printer lives in `mlx/utils.cpp`, outside the given sources; the spec's
section 7 only requires errors to carry the offending dtype).  Used solely
to build error messages. -/
def dtype_str : Dtype → String
  | .bool_ => "bool"
  | .uint8 => "uint8"
  | .uint16 => "uint16"
  | .uint32 => "uint32"
  | .uint64 => "uint64"
  | .int8 => "int8"
  | .int16 => "int16"
  | .int32 => "int32"
  | .int64 => "int64"
  | .float16 => "float16"
  | .float32 => "float32"
  | .bfloat16 => "bfloat16"
  | .complex64 => "complex64"

/-- The metadata dtype dispatch of `save_gguf` (gguf.cpp lines 497-527): the
ten dtypes with a metadata value tag; `float16`, `bfloat16` and `complex64`
fall to the error default. -/
def metadata_dtype_value_type : Dtype → Option GgufValueType
  | .float32 => some .FLOAT32
  | .int64 => some .INT64
  | .int32 => some .INT32
  | .int16 => some .INT16
  | .int8 => some .INT8
  | .uint64 => some .UINT64
  | .uint32 => some .UINT32
  | .uint16 => some .UINT16
  | .uint8 => some .UINT8
  | .bool_ => some .BOOL
  | _ => none

/-- `append_kv_array` (gguf.cpp lines 389-420): a 1-dimensional tensor is
written as an array value (12-byte header carrying the element tag and
count, then the raw bytes); anything else (here: a 0-dimensional tensor)
as a bare scalar value. -/
def append_kv_array (key : String) (t : Tensor) (vt : GgufValueType) :
    String × GgufValueType × GgufValue :=
  if t.shape.length = 1 then (key, .ARRAY, .varr vt t.numel [])
  else (key, vt, .vnum)

/-- One metadata entry of the writer (gguf.cpp lines 443-537): strings and
string vectors are encoded directly; a tensor value must have at most one
dimension, be non-empty, and carry a dtype with a metadata tag; a monostate
value is an error.  (The eval/contiguity repair of the source is a no-op
here: model tensors are already contiguous bytes.) -/
def encode_metadata_entry (key : String) (v : MetaData) :
    Except String (String × GgufValueType × GgufValue) :=
  match v with
  | .str s => .ok (key, .STRING, .vstr s)
  | .strList l => .ok (key, .ARRAY, .varr .STRING l.length l)
  | .tensor t =>
    if 1 < t.shape.length then
      .error ("[save_gguf] Cannot save arrays with more than one dimension.")
    else if t.numel = 0 then
      .error ("[save_gguf] Cannot save empty arrays.")
    else
      match metadata_dtype_value_type t.dtype with
      | some vt => .ok (append_kv_array key t vt)
      | none =>
        .error ("[save_gguf] array type " ++ dtype_str t.dtype ++ " not support for metadata.")
  | .empty => .error ("[save_gguf] Received unexpected type in metadata")

/-- The metadata loop of `save_gguf` (gguf.cpp lines 443-538). -/
def encode_metadata : List (String × MetaData) →
    Except String (List (String × GgufValueType × GgufValue))
  | [] => .ok []
  | (k, v) :: rest => do
    let e ← encode_metadata_entry k v
    let tail ← encode_metadata rest
    .ok (e :: tail)

/-- Modelled from the spec: gguflib's `gguf_get_alignment_padding` macro
(the external library's cursor mechanics): the number of bytes needed to
round `offset` up to the next multiple of `alignment` (spec glossary,
"Alignment padding"). -/
def gguf_get_alignment_padding (alignment offset : Nat) : Nat :=
  (alignment - offset % alignment) % alignment

/-- `offset` rounded up to the next multiple of `alignment`. -/
def align_up (alignment offset : Nat) : Nat :=
  offset + gguf_get_alignment_padding alignment offset

/-- The tensor-descriptor loop of `save_gguf` (gguf.cpp lines 540-586),
carrying the running `tensor_offset`: pad the offset up to the alignment
boundary, reject a dtype without an on-disk code (naming the dtype), append
the descriptor (reversed dims, type code, padded offset), advance the
offset by the tensor's byte size.  The descriptor is paired here with the
tensor's bytes, which the second loop (lines 589-593) appends in the same
iteration order. -/
def append_tensor_infos (alignment : Nat) :
    Nat → List (String × Tensor) → Except String (List (GgufTensor × Nat))
  | _, [] => .ok []
  | off, (key, arr) :: rest =>
    let off := align_up alignment off
    match dtype_to_gguf_tensor_type arr.dtype with
    | none => .error ("[save_gguf] dtype " ++ dtype_str arr.dtype ++ " is not supported")
    | some ty => do
      let tail ← append_tensor_infos alignment (off + arr.nbytes) rest
      .ok ((⟨key, save_dims arr.shape, ty, arr.numel, arr.nbytes, arr.data⟩, off) :: tail)

/-- `file.length() < 5 || file.substr(file.length() - 5, 5) != ".gguf"`
(gguf.cpp line 427). -/
def needs_gguf_extension (file : String) : Bool :=
  decide (file.data.length < 5) ||
  !(decide (file.data.drop (file.data.length - 5) = ".gguf".data))

/-- `save_gguf` (gguf.cpp lines 422-595): normalize the file name, encode
the metadata entries, then append tensor descriptors and tensor bytes.  The
produced value is the container file as the reader will see it (the
descriptor offsets are kept alongside).  `alignment` is the context's
alignment (`ctx->alignment`, set by the external library). -/
def save_gguf_model (file : String) (alignment : Nat)
    (array_map : List (String × Tensor)) (metadata : List (String × MetaData)) :
    Except String (String × GgufFile × List Nat) := do
  let file := (if needs_gguf_extension file then file ++ ".gguf" else file)
  let kvs ← encode_metadata metadata
  let infos ← append_tensor_infos alignment 0 array_map
  .ok (file, ⟨kvs, infos.map (·.1)⟩, infos.map (·.2))

/-- Whether the `gguf_close(ctx)` call of `save_gguf` (gguf.cpp line 594)
is reached: it is the last statement of the function, so an exception
thrown anywhere in the metadata loop or either tensor loop propagates to
the caller before it can run. -/
def save_gguf_reaches_close (file : String) (alignment : Nat)
    (array_map : List (String × Tensor)) (metadata : List (String × MetaData)) : Bool :=
  match save_gguf_model file alignment array_map metadata with
  | .error _ => false
  | .ok _ => true

/-- The running-offset recursion of the writer's descriptor loop
(gguf.cpp lines 540-586) in isolation, mapping the byte sizes of the
tensors, in iteration order, to the offsets recorded in their descriptors:
pad the running offset up to the alignment boundary, record it, advance it
by the tensor's byte size. -/
def tensor_info_offsets (alignment : Nat) : Nat → List Nat → List Nat
  | _, [] => []
  | off, sz :: rest =>
    let o := align_up alignment off
    o :: tensor_info_offsets alignment (o + sz) rest

deriving instance DecidableEq for Except

/-! ### Helper lemmas -/

/-- The index-reversal loop is list reversal. -/
theorem rev_index_map_eq_reverse (l : List Nat) : rev_index_map l = l.reverse := by
  apply List.ext_getElem
  · simp [rev_index_map]
  · intro n h1 h2
    have hn : n < l.length := by simpa [rev_index_map] using h1
    simp only [rev_index_map, List.getElem_map, List.getElem_range]
    rw [List.getElem_reverse, List.getD_eq_getElem l 0 (by omega)]

/-! ### C7: shape-order symmetry between writer and reader -/

/-- C7: the writer stores the dimension sizes in the reverse of host order
(host `[3,2]` becomes `[2,3]` on disk), the reader reverses the stored dims
back, and the composition reproduces the host shape. -/
theorem C7_shape_order_symmetry (t : GgufTensor) (shape : List Nat)
    (h : t.dim = save_dims shape) :
    get_shape t = shape ∧ save_dims [3, 2] = [2, 3] := by
  constructor
  · simp [get_shape, save_dims, h, rev_index_map_eq_reverse]
  · decide

theorem C7_witness :
    (⟨"a", [2, 3], .F32, 6, 24, []⟩ : GgufTensor).dim = save_dims [3, 2] ∧
    (get_shape (⟨"a", [2, 3], .F32, 6, 24, []⟩ : GgufTensor) = [3, 2] ∧
      save_dims [3, 2] = [2, 3]) :=
  ⟨by decide, C7_shape_order_symmetry ⟨"a", [2, 3], .F32, 6, 24, []⟩ [3, 2] (by decide)⟩

/-! ### C1: metadata cursor advancement -/

/-- C1: the claim — that the decoder always advances the section cursor by
the value's on-disk size — fails for float64: the code downcasts the value
to a host float32 array and advances by the HOST byte size (`pv->nbytes()`,
gguf.cpp lines 196-198), i.e. 4 bytes for a float64 scalar that occupies 8
on disk, and 12 + 4·len instead of 12 + 8·len for a float64 array. -/
theorem C1_float64_cursor_advance_bug :
    (set_mx_value_from_gguf .FLOAT64 .vnum).map (·.2) = .ok 4 ∧
    gguf_value_disk_size .FLOAT64 .vnum = some 8 ∧
    (set_mx_value_from_gguf .ARRAY (.varr .FLOAT64 3 [])).map (·.2) = .ok (12 + 3 * 4) ∧
    gguf_value_disk_size .ARRAY (.varr .FLOAT64 3 []) = some (12 + 3 * 8) :=
  ⟨rfl, rfl, rfl, rfl⟩

/-- For every tag other than FLOAT64 the decoder's cursor advance does equal
the value's on-disk size (strings and string arrays header-inclusive,
numeric values header-exclusive) — the float64 downcast is the only
mismatch.  `hwf` states the one well-formedness fact the on-disk format
guarantees: a string array declares as many strings as it carries. -/
theorem cursor_advance_matches_disk_size_except_float64
    (ty : GgufValueType) (v : GgufValue) (md : MetaData) (adv : Nat)
    (h : set_mx_value_from_gguf ty v = .ok (md, adv))
    (hty : ty ≠ .FLOAT64)
    (hv : ∀ len strs, v ≠ .varr .FLOAT64 len strs)
    (hwf : ∀ itype len strs, v = .varr itype len strs → strs.length = len) :
    gguf_value_disk_size ty v = some adv := by
  cases v with
  | vnum =>
    cases ty <;>
      simp_all [set_mx_value_from_gguf, gguf_value_disk_size,
        gguf_value_type_disk_size, scalar_mx_dtype, Dtype.size]
  | vstr s =>
    cases ty <;>
      simp_all [set_mx_value_from_gguf, gguf_value_disk_size]
  | varr itype len strs =>
    have hlen : strs.length = len := hwf itype len strs rfl
    cases ty <;> try simp_all [set_mx_value_from_gguf, gguf_value_disk_size]
    cases itype <;>
      simp_all [set_mx_value_from_gguf, gguf_value_disk_size,
        gguf_value_type_disk_size, scalar_mx_dtype, Dtype.size,
        List.take_of_length_le, Nat.mul_comm]

/-! ### C8: the context is not closed on error exit paths -/

/-- C8: the claim — that load_gguf and save_gguf close the container
context on every exit path — fails on every error path: `gguf_close(ctx)`
is the last statement of each function with no RAII guard or catch block,
so a propagating exception skips it.  Witnessed by a metadata section whose
array value has a nested-array element type (load) and by a bool-dtype
tensor (save): both calls fail, and neither reaches its close call. -/
theorem C8_close_skipped_on_error :
    ((load_gguf_model ⟨fun _ => none, fun _ => 0⟩
        ⟨[("k", .ARRAY, .varr .ARRAY 0 [])], []⟩).isOk = false ∧
      load_gguf_reaches_close ⟨fun _ => none, fun _ => 0⟩
        ⟨[("k", .ARRAY, .varr .ARRAY 0 [])], []⟩ = false) ∧
    ((save_gguf_model "f" 32 [("t", ⟨.bool_, [4], [0, 0, 0, 0]⟩)] []).isOk = false ∧
      save_gguf_reaches_close "f" 32 [("t", ⟨.bool_, [4], [0, 0, 0, 0]⟩)] [] = false) := by
  decide

/-! ### C9: a name that is exactly ".weight" is not quantized-dispatched -/

/-- C9: a tensor whose stored name is exactly ".weight" fails the strict
length test of `ends_with_weight` (name length must exceed the suffix
length), so whatever its type code it is never dispatched to a block
extractor and takes the generic `extract_tensor_data` path. -/
theorem C9_bare_weight_suffix_name (ty : GgufTensorType) (env : ExtEnv)
    (t : GgufTensor) (hname : t.name = ".weight") :
    classify_tensor ".weight" ty = .generic ∧
    load_one_tensor env t =
      (extract_tensor_data env t).map (fun r => [(t.name, ⟨r.2, get_shape t, r.1⟩)]) := by
  have hew : ends_with_weight ".weight" = false := by decide
  constructor
  · simp [classify_tensor, hew]
  · have hc : classify_tensor t.name t.type = .generic := by
      rw [hname]; simp [classify_tensor, hew]
    simp [load_one_tensor, hc]

theorem C9_witness :
    classify_tensor ".weight" .Q8_0 = .generic ∧
    load_one_tensor ⟨fun _ => none, fun _ => 0⟩
        ⟨".weight", [32], .Q8_0, 32, 34, List.replicate 34 0⟩ =
      (extract_tensor_data ⟨fun _ => none, fun _ => 0⟩
          ⟨".weight", [32], .Q8_0, 32, 34, List.replicate 34 0⟩).map
        (fun r => [((⟨".weight", [32], .Q8_0, 32, 34, List.replicate 34 0⟩ : GgufTensor).name,
          ⟨r.2, get_shape ⟨".weight", [32], .Q8_0, 32, 34, List.replicate 34 0⟩, r.1⟩)]) :=
  C9_bare_weight_suffix_name .Q8_0 ⟨fun _ => none, fun _ => 0⟩
    ⟨".weight", [32], .Q8_0, 32, 34, List.replicate 34 0⟩ rfl

/-! ### C6: descriptor offsets -/

theorem align_up_zero (a : Nat) : align_up a 0 = 0 := by
  simp [align_up, gguf_get_alignment_padding]

theorem le_align_up (a n : Nat) : n ≤ align_up a n :=
  Nat.le_add_right _ _

theorem tensor_info_offsets_length (a : Nat) (szs : List Nat) :
    ∀ off, (tensor_info_offsets a off szs).length = szs.length := by
  induction szs with
  | nil => intro off; rfl
  | cons sz rest ih => intro off; simp [tensor_info_offsets, ih]

/-- The offsets recorded by the writer's descriptor loop are the pure
offset recursion applied to the tensors' byte sizes. -/
theorem append_tensor_infos_offsets (alignment : Nat) (l : List (String × Tensor)) :
    ∀ off infos, append_tensor_infos alignment off l = .ok infos →
      infos.map (·.2) = tensor_info_offsets alignment off (l.map (·.2.nbytes)) := by
  induction l with
  | nil =>
    intro off infos h
    simp only [append_tensor_infos] at h
    cases h
    rfl
  | cons p rest ih =>
    intro off infos h
    simp only [append_tensor_infos] at h
    cases hd : dtype_to_gguf_tensor_type p.2.dtype with
    | none => rw [hd] at h; cases h
    | some ty =>
      rw [hd] at h
      cases htail : append_tensor_infos alignment (align_up alignment off + p.2.nbytes) rest with
      | error e => rw [htail] at h; cases h
      | ok tail =>
        rw [htail] at h
        cases h
        simpa [tensor_info_offsets] using ih _ _ htail

/-- The descriptor loop succeeds when every dtype has an on-disk code. -/
theorem append_tensor_infos_ok (alignment : Nat) (l : List (String × Tensor))
    (hsupp : ∀ p ∈ l, (dtype_to_gguf_tensor_type p.2.dtype).isSome = true) :
    ∀ off, ∃ infos, append_tensor_infos alignment off l = .ok infos := by
  induction l with
  | nil => intro off; exact ⟨[], rfl⟩
  | cons p rest ih =>
    intro off
    have hp := hsupp p (by simp)
    obtain ⟨ty, hty⟩ := Option.isSome_iff_exists.mp hp
    obtain ⟨tail, htail⟩ :=
      ih (fun q hq => hsupp q (by simp [hq])) (align_up alignment off + p.2.nbytes)
    refine ⟨(⟨p.1, save_dims p.2.shape, ty, p.2.numel, p.2.nbytes, p.2.data⟩,
      align_up alignment off) :: tail, ?_⟩
    simp only [append_tensor_infos, hty, htail]
    rfl

theorem tensor_info_offsets_succ (a : Nat) (szs : List Nat) :
    ∀ off i, i + 1 < szs.length →
      (tensor_info_offsets a off szs).getD (i + 1) 0 =
        align_up a ((tensor_info_offsets a off szs).getD i 0 + szs.getD i 0) := by
  induction szs with
  | nil => intro off i hi; simp at hi
  | cons sz rest ih =>
    intro off i hi
    cases i with
    | zero =>
      cases rest with
      | nil => simp at hi
      | cons sz2 r2 => simp [tensor_info_offsets]
    | succ j =>
      have hj : j + 1 < rest.length := by simpa using hi
      simpa [tensor_info_offsets] using ih (align_up a off + sz) j hj

theorem tensor_info_offsets_chain (a : Nat) (szs : List Nat) :
    ∀ off, List.Chain' (· ≤ ·) (tensor_info_offsets a off szs) := by
  induction szs with
  | nil => intro off; simp [tensor_info_offsets]
  | cons sz rest ih =>
    intro off
    rw [tensor_info_offsets, List.chain'_cons']
    refine ⟨?_, ih _⟩
    intro y hy
    cases rest with
    | nil => simp [tensor_info_offsets] at hy
    | cons sz2 r2 =>
      simp only [tensor_info_offsets, List.head?_cons, Option.mem_def, Option.some.injEq] at hy
      subst hy
      calc align_up a off ≤ align_up a off + sz := Nat.le_add_right _ _
        _ ≤ _ := le_align_up _ _

theorem tensor_info_offsets_chain_lt (a : Nat) (szs : List Nat)
    (hpos : ∀ s ∈ szs, 0 < s) :
    ∀ off, List.Chain' (· < ·) (tensor_info_offsets a off szs) := by
  induction szs with
  | nil => intro off; simp [tensor_info_offsets]
  | cons sz rest ih =>
    intro off
    rw [tensor_info_offsets, List.chain'_cons']
    refine ⟨?_, ih (fun s hs => hpos s (by simp [hs])) _⟩
    intro y hy
    cases rest with
    | nil => simp [tensor_info_offsets] at hy
    | cons sz2 r2 =>
      simp only [tensor_info_offsets, List.head?_cons, Option.mem_def, Option.some.injEq] at hy
      subst hy
      calc align_up a off < align_up a off + sz :=
            Nat.lt_add_of_pos_right (hpos sz (by simp))
        _ ≤ _ := le_align_up _ _

/-- C6: for every sequence of tensors the writer accepts, the recorded
descriptor offsets start at 0 relative to the data section, satisfy
`offset[i+1] = align_up (offset[i] + size[i])`, are monotone (strictly so
for tensors of positive byte size), and in particular byte sizes 7 and 5
under alignment 8 receive offsets 0 and 8. -/
theorem C6_descriptor_offsets (alignment : Nat) (l : List (String × Tensor))
    (ha : 0 < alignment)
    (hsupp : ∀ p ∈ l, (dtype_to_gguf_tensor_type p.2.dtype).isSome = true) :
    ∃ infos, append_tensor_infos alignment 0 l = .ok infos ∧
      (l ≠ [] → (infos.map (·.2)).head? = some 0) ∧
      (∀ i, i + 1 < l.length →
        (infos.map (·.2)).getD (i + 1) 0 =
          align_up alignment
            ((infos.map (·.2)).getD i 0 + (l.map (·.2.nbytes)).getD i 0)) ∧
      List.Chain' (· ≤ ·) (infos.map (·.2)) ∧
      ((∀ p ∈ l, 0 < p.2.nbytes) → List.Chain' (· < ·) (infos.map (·.2))) ∧
      tensor_info_offsets 8 0 [7, 5] = [0, 8] := by
  obtain ⟨infos, hinfos⟩ := append_tensor_infos_ok alignment l hsupp 0
  have hoffs := append_tensor_infos_offsets alignment l 0 infos hinfos
  refine ⟨infos, hinfos, ?_, ?_, ?_, ?_, by decide⟩
  · intro hne
    rw [hoffs]
    cases l with
    | nil => exact absurd rfl hne
    | cons p rest => simp [tensor_info_offsets, align_up_zero]
  · intro i hi
    rw [hoffs]
    exact tensor_info_offsets_succ alignment (l.map (·.2.nbytes)) 0 i (by simpa using hi)
  · rw [hoffs]; exact tensor_info_offsets_chain alignment _ 0
  · intro hpos
    rw [hoffs]
    refine tensor_info_offsets_chain_lt alignment _ ?_ 0
    intro s hs
    obtain ⟨p, hp, hps⟩ := List.mem_map.mp hs
    exact hps ▸ hpos p hp

theorem C6_witness :
    0 < 8 ∧
    (∀ p ∈ ([("a", ⟨.int8, [7], List.replicate 7 0⟩),
      ("b", ⟨.int8, [5], List.replicate 5 0⟩)] : List (String × Tensor)),
      (dtype_to_gguf_tensor_type p.2.dtype).isSome = true) ∧
    ∃ infos,
      append_tensor_infos 8 0
        [("a", ⟨.int8, [7], List.replicate 7 0⟩), ("b", ⟨.int8, [5], List.replicate 5 0⟩)] =
          .ok infos ∧
      (([("a", (⟨.int8, [7], List.replicate 7 0⟩ : Tensor)),
          ("b", ⟨.int8, [5], List.replicate 5 0⟩)] : List (String × Tensor)) ≠ [] →
        (infos.map (·.2)).head? = some 0) ∧
      (∀ i, i + 1 < ([("a", (⟨.int8, [7], List.replicate 7 0⟩ : Tensor)),
          ("b", ⟨.int8, [5], List.replicate 5 0⟩)] : List (String × Tensor)).length →
        (infos.map (·.2)).getD (i + 1) 0 =
          align_up 8 ((infos.map (·.2)).getD i 0 +
            (([("a", (⟨.int8, [7], List.replicate 7 0⟩ : Tensor)),
              ("b", ⟨.int8, [5], List.replicate 5 0⟩)] : List (String × Tensor)).map
                (·.2.nbytes)).getD i 0)) ∧
      List.Chain' (· ≤ ·) (infos.map (·.2)) ∧
      ((∀ p ∈ ([("a", (⟨.int8, [7], List.replicate 7 0⟩ : Tensor)),
          ("b", ⟨.int8, [5], List.replicate 5 0⟩)] : List (String × Tensor)),
          0 < p.2.nbytes) → List.Chain' (· < ·) (infos.map (·.2))) ∧
      tensor_info_offsets 8 0 [7, 5] = [0, 8] :=
  ⟨by decide, by decide,
    C6_descriptor_offsets 8
      [("a", ⟨.int8, [7], List.replicate 7 0⟩), ("b", ⟨.int8, [5], List.replicate 5 0⟩)]
      (by decide) (by decide)⟩

/-! ### C3: write-time dtype support -/

theorem except_ok_bind {ε α β : Type} (a : α) (f : α → Except ε β) :
    (Except.ok a : Except ε α) >>= f = f a := rfl

theorem except_error_bind {ε α β : Type} (e : ε) (f : α → Except ε β) :
    (Except.error e : Except ε α) >>= f = Except.error e := rfl

theorem append_tensor_infos_isOk (alignment : Nat) (l : List (String × Tensor)) :
    ∀ off, (append_tensor_infos alignment off l).isOk = true ↔
      ∀ p ∈ l, (dtype_to_gguf_tensor_type p.2.dtype).isSome = true := by
  induction l with
  | nil => intro off; simp [append_tensor_infos, Except.isOk, Except.toBool]
  | cons p rest ih =>
    intro off
    simp only [append_tensor_infos]
    cases hd : dtype_to_gguf_tensor_type p.2.dtype with
    | none =>
      simp only [Except.isOk, Except.toBool]
      constructor
      · intro h; cases h
      · intro h
        have := h p (by simp)
        rw [hd] at this
        cases this
    | some ty =>
      cases htail : append_tensor_infos alignment (align_up alignment off + p.2.nbytes) rest with
      | error e =>
        have hr := (ih (align_up alignment off + p.2.nbytes))
        rw [htail] at hr
        simp only [Except.isOk, Except.toBool] at hr ⊢
        simp only [except_error_bind]
        constructor
        · intro h; cases h
        · intro h
          exact absurd (hr.mpr (fun q hq => h q (by simp [hq]))) (by simp)
      | ok tail =>
        have hr := (ih (align_up alignment off + p.2.nbytes))
        rw [htail] at hr
        simp only [Except.isOk, Except.toBool] at hr ⊢
        simp only [except_ok_bind]
        constructor
        · intro _ q hq
          rcases List.mem_cons.mp hq with h1 | h2
          · subst h1; simp [hd]
          · exact (hr.mp (by trivial)) q h2
        · intro _; trivial

theorem save_gguf_model_isOk (file : String) (alignment : Nat)
    (l : List (String × Tensor)) :
    (save_gguf_model file alignment l []).isOk = true ↔
      ∀ p ∈ l, (dtype_to_gguf_tensor_type p.2.dtype).isSome = true := by
  rw [← append_tensor_infos_isOk alignment l 0]
  simp only [save_gguf_model, encode_metadata]
  cases h : append_tensor_infos alignment 0 l with
  | error e => rfl
  | ok infos => rfl

/-- C3 counterexample: the claim says the write-time unsupported-dtype error
carries the offending dtype AND the tensor name, but the message the source
builds (gguf.cpp lines 563-566) mentions only the dtype: saving a bool
tensor under the key "test" produces an error in which "test" does not
occur. -/
theorem C3_missing_name_counterexample :
    save_gguf_model "f" 32 [("test", ⟨.bool_, [4], [0, 0, 0, 0]⟩)] [] =
      .error ("[save_gguf] dtype bool is not supported") ∧
    ¬ List.IsInfix "test".data "[save_gguf] dtype bool is not supported".data := by
  decide

/-- C3 (amended: the error carries the offending dtype, not the tensor
name): `dtype_to_gguf_tensor_type` returns a code exactly for
float32/float16/int8/int16/int32, and `save_gguf` (without metadata)
succeeds exactly when every tensor's dtype has a code — so every dtype in
the claim's unsupported set is rejected and every dtype in its supported
set is accepted. -/
theorem C3_unsupported_dtype_amended :
    (∀ d : Dtype, (dtype_to_gguf_tensor_type d).isSome = true ↔
      d ∈ ([.float32, .float16, .int8, .int16, .int32] : List Dtype)) ∧
    ∀ file alignment l, (save_gguf_model file alignment l []).isOk = true ↔
      ∀ p ∈ l, (dtype_to_gguf_tensor_type p.2.dtype).isSome = true :=
  ⟨fun d => by cases d <;> decide, fun file alignment l => save_gguf_model_isOk file alignment l⟩

theorem C3_witness :
    (save_gguf_model "f" 32 [("x", ⟨.int8, [1], [7]⟩)] []).isOk = true :=
  (C3_unsupported_dtype_amended.2 "f" 32 [("x", ⟨.int8, [1], [7]⟩)]).mpr (by decide)

/-! ### C2: container round trip without metadata -/

/-- The outbound and inbound type-code maps invert each other on the
supported dtypes. -/
theorem gguf_type_to_dtype_roundtrip (d : Dtype) (c : GgufTensorType)
    (h : dtype_to_gguf_tensor_type d = some c) : gguf_type_to_dtype c = some d := by
  cases d <;> simp only [dtype_to_gguf_tensor_type, Option.some.injEq] at h <;>
    (try cases h) <;> rfl

theorem classify_tensor_generic (name : String) (ty : GgufTensorType)
    (h0 : ty ≠ .Q4_0) (h1 : ty ≠ .Q4_1) (h8 : ty ≠ .Q8_0) :
    classify_tensor name ty = .generic := by
  simp [classify_tensor, h0, h1, h8]

/-- A code produced by the outbound map is never a quantization code. -/
theorem saved_code_not_quant (d : Dtype) (c : GgufTensorType)
    (h : dtype_to_gguf_tensor_type d = some c) :
    c ≠ .Q4_0 ∧ c ≠ .Q4_1 ∧ c ≠ .Q8_0 := by
  cases d <;> simp only [dtype_to_gguf_tensor_type, Option.some.injEq] at h <;>
    (try cases h) <;> decide

/-- Loading the descriptor the writer emits for one supported tensor
reproduces that tensor. -/
theorem load_one_saved (env : ExtEnv) (key : String) (arr : Tensor) (ty : GgufTensorType)
    (hty : dtype_to_gguf_tensor_type arr.dtype = some ty)
    (hlen : arr.data.length = arr.numel * arr.dtype.size) :
    load_one_tensor env ⟨key, save_dims arr.shape, ty, arr.numel, arr.nbytes, arr.data⟩ =
      .ok [(key, arr)] := by
  obtain ⟨h0, h1, h8⟩ := saved_code_not_quant arr.dtype ty hty
  have hgen : classify_tensor key ty = .generic := classify_tensor_generic key ty h0 h1 h8
  have hshape : get_shape (⟨key, save_dims arr.shape, ty, arr.numel, arr.nbytes, arr.data⟩ :
      GgufTensor) = arr.shape := by
    simp [get_shape, save_dims, rev_index_map_eq_reverse]
  simp only [load_one_tensor, hgen, extract_tensor_data,
    gguf_type_to_dtype_roundtrip arr.dtype ty hty]
  rw [hshape]
  have htake : arr.data.take (arr.numel * arr.dtype.size) = arr.data := by
    rw [← hlen, List.take_length]
  simp only [Except.map_ok, htake]
  cases arr
  rfl

/-- The writer's descriptor loop followed by the reader's tensor loop is the
identity on a supported, well-formed tensor map. -/
theorem save_load_arrays (env : ExtEnv) (alignment : Nat) (l : List (String × Tensor))
    (h : ∀ p ∈ l, (dtype_to_gguf_tensor_type p.2.dtype).isSome = true ∧
      p.2.data.length = p.2.numel * p.2.dtype.size) :
    ∀ off, ∃ infos, append_tensor_infos alignment off l = .ok infos ∧
      load_arrays env (infos.map (·.1)) = .ok l := by
  induction l with
  | nil => exact fun off => ⟨[], rfl, rfl⟩
  | cons p rest ih =>
    intro off
    obtain ⟨hsupp, hdata⟩ := h p (by simp)
    obtain ⟨ty, hty⟩ := Option.isSome_iff_exists.mp hsupp
    obtain ⟨tail, htail, hload⟩ :=
      ih (fun q hq => h q (by simp [hq])) (align_up alignment off + p.2.nbytes)
    refine ⟨(⟨p.1, save_dims p.2.shape, ty, p.2.numel, p.2.nbytes, p.2.data⟩,
      align_up alignment off) :: tail, ?_, ?_⟩
    · simp only [append_tensor_infos, hty, htail, except_ok_bind]
    · simp only [List.map_cons, load_arrays,
        load_one_saved env p.1 p.2 ty hty hdata, hload, except_ok_bind]
      rfl

/-- Every dtype in the claim's supported set has an on-disk code. -/
theorem supported_dtype_code (d : Dtype)
    (hd : d ∈ ([.int8, .int16, .int32, .float16, .float32] : List Dtype)) :
    (dtype_to_gguf_tensor_type d).isSome = true := by
  fin_cases hd <;> rfl

/-- C2: saving a map of supported-dtype tensors (0-D through 5-D shapes,
dimensions of size 1 allowed) with no metadata and loading the produced
container back returns the same keys with dtype-, shape- and value-equal
tensors, and an empty metadata map.  `hlen` is the well-formedness of a
host tensor: its buffer holds exactly `numel * dtype.size` bytes. -/
theorem C2_container_roundtrip (env : ExtEnv) (file : String) (alignment : Nat)
    (l : List (String × Tensor))
    (h : ∀ p ∈ l, p.2.dtype ∈ ([.int8, .int16, .int32, .float16, .float32] : List Dtype) ∧
      p.2.shape.length ≤ 5 ∧ p.2.data.length = p.2.numel * p.2.dtype.size) :
    ((save_gguf_model file alignment l []).bind fun r => load_gguf_model env r.2.1) =
      .ok (l, []) := by
  have h' : ∀ p ∈ l, (dtype_to_gguf_tensor_type p.2.dtype).isSome = true ∧
      p.2.data.length = p.2.numel * p.2.dtype.size := by
    intro p hp
    obtain ⟨hd, _, hlen⟩ := h p hp
    exact ⟨supported_dtype_code p.2.dtype hd, hlen⟩
  obtain ⟨infos, hinfos, hload⟩ := save_load_arrays env alignment l h' 0
  simp only [save_gguf_model, encode_metadata, hinfos, except_ok_bind, Except.bind,
    load_gguf_model, load_metadata, hload]

theorem C2_witness :
    (∀ p ∈ ([("test", ⟨.float32, [3, 2], List.replicate 24 1⟩),
        ("t2", ⟨.int8, [], [5]⟩),
        ("t3", ⟨.float16, [2, 1, 2, 1, 3], List.replicate 24 7⟩)] : List (String × Tensor)),
      p.2.dtype ∈ ([.int8, .int16, .int32, .float16, .float32] : List Dtype) ∧
      p.2.shape.length ≤ 5 ∧ p.2.data.length = p.2.numel * p.2.dtype.size) ∧
    ((save_gguf_model "model" 32
        [("test", ⟨.float32, [3, 2], List.replicate 24 1⟩),
         ("t2", ⟨.int8, [], [5]⟩),
         ("t3", ⟨.float16, [2, 1, 2, 1, 3], List.replicate 24 7⟩)] []).bind
      fun r => load_gguf_model ⟨fun _ => none, fun _ => 0⟩ r.2.1) =
      .ok ([("test", ⟨.float32, [3, 2], List.replicate 24 1⟩),
        ("t2", ⟨.int8, [], [5]⟩),
        ("t3", ⟨.float16, [2, 1, 2, 1, 3], List.replicate 24 7⟩)], []) :=
  ⟨by decide,
    C2_container_roundtrip ⟨fun _ => none, fun _ => 0⟩ "model" 32
      [("test", ⟨.float32, [3, 2], List.replicate 24 1⟩),
       ("t2", ⟨.int8, [], [5]⟩),
       ("t3", ⟨.float16, [2, 1, 2, 1, 3], List.replicate 24 7⟩)] (by decide)⟩

/-! ### C5: the reader's per-tensor dispatch -/

theorem classify_q4_0_iff (name : String) (ty : GgufTensorType) :
    classify_tensor name ty = .q4_0 ↔ ends_with_weight name = true ∧ ty = .Q4_0 := by
  by_cases he : ends_with_weight name = true <;> by_cases h0 : ty = .Q4_0 <;>
    by_cases h1 : ty = .Q4_1 <;> by_cases h8 : ty = .Q8_0 <;>
      simp_all [classify_tensor]

theorem classify_q4_1_iff (name : String) (ty : GgufTensorType) :
    classify_tensor name ty = .q4_1 ↔ ends_with_weight name = true ∧ ty = .Q4_1 := by
  by_cases he : ends_with_weight name = true <;> by_cases h0 : ty = .Q4_0 <;>
    by_cases h1 : ty = .Q4_1 <;> by_cases h8 : ty = .Q8_0 <;>
      simp_all [classify_tensor]

theorem classify_q8_0_iff (name : String) (ty : GgufTensorType) :
    classify_tensor name ty = .q8_0 ↔ ends_with_weight name = true ∧ ty = .Q8_0 := by
  by_cases he : ends_with_weight name = true <;> by_cases h0 : ty = .Q4_0 <;>
    by_cases h1 : ty = .Q4_1 <;> by_cases h8 : ty = .Q8_0 <;>
      simp_all [classify_tensor]

theorem classify_isQuant_iff (name : String) (ty : GgufTensorType) :
    (classify_tensor name ty).isQuant = true ↔
      ends_with_weight name = true ∧ (ty = .Q4_0 ∨ ty = .Q4_1 ∨ ty = .Q8_0) := by
  by_cases he : ends_with_weight name = true <;> by_cases h0 : ty = .Q4_0 <;>
    by_cases h1 : ty = .Q4_1 <;> by_cases h8 : ty = .Q8_0 <;>
      simp_all [classify_tensor, LoadPath.isQuant]

/-- A code the inbound map accepts is never a quantization code. -/
theorem mappable_code_not_quant (c : GgufTensorType) (d : Dtype)
    (h : gguf_type_to_dtype c = some d) : c ≠ .Q4_0 ∧ c ≠ .Q4_1 ∧ c ≠ .Q8_0 := by
  cases c <;> simp_all [gguf_type_to_dtype]

/-- C5: the reader's per-tensor dispatch.  A descriptor goes to the matching
block extractor exactly when its type code is a known quantization scheme
AND its name carries the reserved weight suffix; otherwise, a directly
mappable type code yields a verbatim byte copy (`num_weights * size` bytes)
tagged with the mapped dtype; otherwise the bytes are converted by
`gguf_tensor_to_f16` into a float16-tagged tensor of `num_weights` elements,
and this fallback errors exactly when the conversion routine reports
failure (returns NULL). -/
theorem C5_tensor_dispatch (t : GgufTensor) (env : ExtEnv) :
    ((classify_tensor t.name t.type).isQuant = true ↔
      ends_with_weight t.name = true ∧
        (t.type = .Q4_0 ∨ t.type = .Q4_1 ∨ t.type = .Q8_0)) ∧
    (classify_tensor t.name t.type = .q4_0 ↔
      ends_with_weight t.name = true ∧ t.type = .Q4_0) ∧
    (classify_tensor t.name t.type = .q4_1 ↔
      ends_with_weight t.name = true ∧ t.type = .Q4_1) ∧
    (classify_tensor t.name t.type = .q8_0 ↔
      ends_with_weight t.name = true ∧ t.type = .Q8_0) ∧
    (∀ d, gguf_type_to_dtype t.type = some d →
      classify_tensor t.name t.type = .generic ∧
      load_one_tensor env t =
        .ok [(t.name, ⟨d, get_shape t, t.weights_data.take (t.num_weights * d.size)⟩)]) ∧
    (gguf_type_to_dtype t.type = none → classify_tensor t.name t.type = .generic →
      ((load_one_tensor env t).isOk = false ↔ env.conv t = none) ∧
      (∀ bs, env.conv t = some bs →
        load_one_tensor env t =
          .ok [(t.name, ⟨.float16, get_shape t, bs.take (t.num_weights * 2)⟩)])) := by
  refine ⟨classify_isQuant_iff t.name t.type, classify_q4_0_iff t.name t.type,
    classify_q4_1_iff t.name t.type, classify_q8_0_iff t.name t.type, ?_, ?_⟩
  · intro d hd
    obtain ⟨h0, h1, h8⟩ := mappable_code_not_quant t.type d hd
    have hgen : classify_tensor t.name t.type = .generic :=
      classify_tensor_generic t.name t.type h0 h1 h8
    refine ⟨hgen, ?_⟩
    simp [load_one_tensor, hgen, extract_tensor_data, hd, Except.map]
  · intro hnone hgen
    constructor
    · cases hconv : env.conv t with
      | none =>
        simp [load_one_tensor, hgen, extract_tensor_data, hnone, hconv,
          Except.isOk, Except.toBool, Except.map]
      | some bs =>
        simp [load_one_tensor, hgen, extract_tensor_data, hnone, hconv,
          Except.isOk, Except.toBool, Except.map]
    · intro bs hconv
      simp [load_one_tensor, hgen, extract_tensor_data, hnone, hconv, Except.map]

theorem C5_witness :
    (classify_tensor "a.weight" .Q8_0).isQuant = true ∧
    load_one_tensor ⟨fun _ => some [9, 9, 9, 9], fun _ => 0⟩
        ⟨"x", [2], .F32, 2, 8, [1, 2, 3, 4, 5, 6, 7, 8]⟩ =
      .ok [("x", ⟨.float32, [2], [1, 2, 3, 4, 5, 6, 7, 8]⟩)] ∧
    load_one_tensor ⟨fun _ => some [9, 9, 9, 9], fun _ => 0⟩
        ⟨"y", [2], .other 10, 2, 8, [1, 2]⟩ =
      .ok [("y", ⟨.float16, [2], [9, 9, 9, 9]⟩)] :=
  ⟨(C5_tensor_dispatch ⟨"a.weight", [32], .Q8_0, 32, 34, []⟩
      ⟨fun _ => some [9, 9, 9, 9], fun _ => 0⟩).1.mpr (by decide),
   ((C5_tensor_dispatch ⟨"x", [2], .F32, 2, 8, [1, 2, 3, 4, 5, 6, 7, 8]⟩
      ⟨fun _ => some [9, 9, 9, 9], fun _ => 0⟩).2.2.2.2.1 .float32 (by decide)).2,
   ((C5_tensor_dispatch ⟨"y", [2], .other 10, 2, 8, [1, 2]⟩
      ⟨fun _ => some [9, 9, 9, 9], fun _ => 0⟩).2.2.2.2.2 (by decide) (by decide)).2
        [9, 9, 9, 9] rfl⟩

/-! ### C4: q8_0 block extraction -/

theorem fp16_fields (s e m : Nat) (hs : s < 2) (he : e < 32) (hm : m < 2 ^ 10) :
    fp16_sign (s * 2 ^ 15 + e * 2 ^ 10 + m) = s ∧
    fp16_exp (s * 2 ^ 15 + e * 2 ^ 10 + m) = e ∧
    fp16_frac (s * 2 ^ 15 + e * 2 ^ 10 + m) = m := by
  simp only [fp16_sign, fp16_exp, fp16_frac]
  norm_num
  omega

theorem fp16_to_rat_of_fields (s e m : Nat) (hs : s < 2) (he0 : e ≠ 0)
    (he : e < 32) (hm : m < 2 ^ 10) :
    fp16_to_rat (s * 2 ^ 15 + e * 2 ^ 10 + m) =
      (if s = 1 then (-1 : ℚ) else 1) * ((2 ^ 10 + m : Nat) : ℚ) * 2 ^ e / 2 ^ 25 := by
  obtain ⟨h1, h2, h3⟩ := fp16_fields s e m hs he hm
  unfold fp16_to_rat
  rw [h1, h2, h3]
  simp only [he0, if_false]
  by_cases hs1 : s = 1 <;> simp [hs1] <;> ring

/-- The C bias computation is exact: for a normal, non-overflowing scale
(exponent field between 1 and 23) the float16 value of `fp16_mul_neg128 b`
is exactly -128 times the value of `b`. -/
theorem fp16_mul_neg128_value (b : Nat) (he1 : 1 ≤ fp16_exp b) (he : fp16_exp b ≤ 23) :
    fp16_to_rat (fp16_mul_neg128 b) = -128 * fp16_to_rat b := by
  have hslt : fp16_sign b < 2 := Nat.mod_lt _ (by norm_num)
  have hmlt : fp16_frac b < 2 ^ 10 := Nat.mod_lt _ (by norm_num)
  have helt : fp16_exp b < 32 := Nat.mod_lt _ (by norm_num)
  have h31 : ¬ fp16_exp b = 31 := by omega
  have h0 : ¬ fp16_exp b = 0 := by omega
  have h24 : ¬ 24 ≤ fp16_exp b := by omega
  rw [fp16_mul_neg128]
  simp only [h31, h0, h24, if_false]
  rw [fp16_to_rat_of_fields (1 - fp16_sign b) (fp16_exp b + 7) (fp16_frac b)
    (by omega) (by omega) (by omega) hmlt]
  conv_rhs => rw [fp16_to_rat]
  simp only [h0, if_false]
  have hs01 : fp16_sign b = 0 ∨ fp16_sign b = 1 := by omega
  rcases hs01 with hs | hs <;>
    · rw [hs]
      norm_num [pow_add]
      ring

theorem q8_inner_fold (data : List Nat) (i : Nat) (st : QuantOut) (n : Nat) :
    ((List.range n).foldl (q8_wstep data i) st).scales = st.scales ∧
    ((List.range n).foldl (q8_wstep data i) st).biases = st.biases ∧
    (∀ k, (k < 32 * i ∨ 32 * i + n ≤ k) →
      ((List.range n).foldl (q8_wstep data i) st).weights k = st.weights k) ∧
    (∀ j, j < n →
      ((List.range n).foldl (q8_wstep data i) st).weights (32 * i + j) =
        (data.getD (34 * i + j + 2) 0) ^^^ 128) := by
  induction n with
  | zero => simp
  | succ n ih =>
    obtain ⟨hsc, hbi, hout, hin⟩ := ih
    rw [List.range_succ, List.foldl_append, List.foldl_cons, List.foldl_nil]
    refine ⟨?_, ?_, ?_, ?_⟩
    · simp [q8_wstep, hsc]
    · simp [q8_wstep, hbi]
    · intro k hk
      simp only [q8_wstep, upd]
      rw [if_neg (by omega)]
      exact hout k (by omega)
    · intro j hj
      rcases Nat.lt_succ_iff_lt_or_eq.mp hj with hj' | hj'
      · simp only [q8_wstep, upd]
        rw [if_neg (by omega)]
        exact hin j hj'
      · subst hj'
        simp [q8_wstep, upd]

theorem q8_block_spec (data : List Nat) (st : QuantOut) (i : Nat) :
    ((q8_block data st i).scales i = read_u16le data (34 * i)) ∧
    ((q8_block data st i).biases i = fp16_mul_neg128 (read_u16le data (34 * i))) ∧
    (∀ j, j < 32 → (q8_block data st i).weights (32 * i + j) =
      (data.getD (34 * i + j + 2) 0) ^^^ 128) ∧
    (∀ j, j ≠ i → (q8_block data st i).scales j = st.scales j) ∧
    (∀ j, j ≠ i → (q8_block data st i).biases j = st.biases j) ∧
    (∀ k, (k < 32 * i ∨ 32 * i + 32 ≤ k) → (q8_block data st i).weights k = st.weights k) := by
  obtain ⟨hsc, hbi, hout, hin⟩ := q8_inner_fold data i
    { st with
      scales := upd st.scales i (read_u16le data (34 * i)),
      biases := upd st.biases i (fp16_mul_neg128 (read_u16le data (34 * i))) } 32
  refine ⟨?_, ?_, ?_, ?_, ?_, ?_⟩
  · rw [q8_block, hsc]; simp [upd]
  · rw [q8_block, hbi]; simp [upd]
  · intro j hj; rw [q8_block]; exact hin j hj
  · intro j hij; rw [q8_block, hsc]; simp [upd, hij]
  · intro j hij; rw [q8_block, hbi]; simp [upd, hij]
  · intro k hk; rw [q8_block]; exact hout k hk

theorem extract_q8_0_core_spec (data : List Nat) (nb : Nat) (init : QuantOut) :
    ∀ i, i < nb →
      (extract_q8_0_core data nb init).scales i = read_u16le data (34 * i) ∧
      (extract_q8_0_core data nb init).biases i =
        fp16_mul_neg128 (read_u16le data (34 * i)) ∧
      ∀ j, j < 32 → (extract_q8_0_core data nb init).weights (32 * i + j) =
        (data.getD (34 * i + j + 2) 0) ^^^ 128 := by
  induction nb with
  | zero => intro i hi; omega
  | succ nb ih =>
    intro i hi
    unfold extract_q8_0_core at *
    rw [List.range_succ, List.foldl_append, List.foldl_cons, List.foldl_nil]
    obtain ⟨hs', hb', hw', hso, hbo, hwo⟩ :=
      q8_block_spec data ((List.range nb).foldl (q8_block data) init) nb
    rcases Nat.lt_succ_iff_lt_or_eq.mp hi with hlt | heq
    · obtain ⟨hs, hb, hw⟩ := ih i hlt
      refine ⟨?_, ?_, ?_⟩
      · rw [hso i (by omega), hs]
      · rw [hbo i (by omega), hb]
      · intro j hj
        rw [hwo (32 * i + j) (Or.inl (by omega)), hw j hj]
    · subst heq
      exact ⟨hs', hb', hw'⟩

/-- C4: for an 8-bit symmetric quantized tensor whose last (fastest
file-order) dimension is a multiple of 32, block `i` of the extraction
yields `scales[i]` equal to the half-precision bit pattern at the start of
the 34-byte block, `biases[i]` whose value is `-128 * scales[i]` (exactly,
whenever the scale is a normal, non-overflowing half), and weight byte
`i*32 + j` equal to input byte `j+2` of the block with its top bit flipped
(XOR 0x80).  The result is independent of the uninitialized buffer contents
`init`, since the q8_0 loop assigns (rather than accumulates) every cell. -/
theorem C4_q8_0_block_semantics (t : GgufTensor) (init : QuantOut) (i : Nat)
    (hlast : (get_shape t).getD ((get_shape t).length - 1) 0 % 32 = 0)
    (hi : i < t.num_weights / 32) :
    ∃ out, extract_q8_0_data init t = .ok out ∧
      out.scales i = read_u16le t.weights_data (34 * i) ∧
      (1 ≤ fp16_exp (out.scales i) → fp16_exp (out.scales i) ≤ 23 →
        fp16_to_rat (out.biases i) = -128 * fp16_to_rat (out.scales i)) ∧
      ∀ j, j < 32 → out.weights (32 * i + j) =
        (t.weights_data.getD (34 * i + j + 2) 0) ^^^ 128 := by
  obtain ⟨hs, hb, hw⟩ :=
    extract_q8_0_core_spec t.weights_data (t.num_weights / 32) init i hi
  refine ⟨extract_q8_0_core t.weights_data (t.num_weights / 32) init, ?_, hs, ?_, hw⟩
  · have hcond : ¬ ((get_shape t).getD ((get_shape t).length - 1) 0 % 32 ≠ 0) := by
      rw [hlast]; exact fun h => h rfl
    rw [extract_q8_0_data, if_neg hcond]
  · intro h1 h2
    rw [hs] at h1 h2 ⊢
    rw [hb]
    exact fp16_mul_neg128_value (read_u16le t.weights_data (34 * i)) h1 h2

theorem C4_witness :
    (get_shape (⟨"w.weight", [32], .Q8_0, 32, 34,
        [0, 60] ++ List.range 32⟩ : GgufTensor)).getD
      ((get_shape (⟨"w.weight", [32], .Q8_0, 32, 34,
        [0, 60] ++ List.range 32⟩ : GgufTensor)).length - 1) 0 % 32 = 0 ∧
    0 < (32 : Nat) / 32 ∧
    ∃ out, extract_q8_0_data ⟨fun _ => 0, fun _ => 0, fun _ => 0⟩
        ⟨"w.weight", [32], .Q8_0, 32, 34, [0, 60] ++ List.range 32⟩ = .ok out ∧
      out.scales 0 = read_u16le ([0, 60] ++ List.range 32) (34 * 0) ∧
      (1 ≤ fp16_exp (out.scales 0) → fp16_exp (out.scales 0) ≤ 23 →
        fp16_to_rat (out.biases 0) = -128 * fp16_to_rat (out.scales 0)) ∧
      ∀ j, j < 32 → out.weights (32 * 0 + j) =
        (([0, 60] ++ List.range 32).getD (34 * 0 + j + 2) 0) ^^^ 128 :=
  ⟨by decide, by decide,
    C4_q8_0_block_semantics ⟨"w.weight", [32], .Q8_0, 32, 34, [0, 60] ++ List.range 32⟩
      ⟨fun _ => 0, fun _ => 0, fun _ => 0⟩ 0 (by decide) (by decide)⟩

/-! ### C10: q4_1 block extraction -/

theorem q4_low_fold (data : List Nat) (i : Nat) (st : QuantOut) (m : Nat) (hm : m ≤ 8) :
    ((List.range (2 * m)).foldl (q4_wstep_low data i) st).scales = st.scales ∧
    ((List.range (2 * m)).foldl (q4_wstep_low data i) st).biases = st.biases ∧
    (∀ k, (∀ j, j < m → k ≠ 16 * i + j) →
      ((List.range (2 * m)).foldl (q4_wstep_low data i) st).weights k = st.weights k) ∧
    (∀ j, j < m →
      ((List.range (2 * m)).foldl (q4_wstep_low data i) st).weights (16 * i + j) =
        (st.weights (16 * i + j) + data.getD (20 * i + 2 * j + 4) 0 % 16 +
          data.getD (20 * i + (2 * j + 1) + 4) 0 % 16 * 16) % 256) := by
  induction m with
  | zero => simp
  | succ m ih =>
    obtain ⟨hsc, hbi, hout, hin⟩ := ih (by omega)
    have h2m : 2 * (m + 1) = 2 * m + 1 + 1 := by omega
    have hne0 : ¬ ((2 * m) % 2 ≠ 0) := by omega
    have hyes1 : (2 * m + 1) % 2 ≠ 0 := by omega
    have hdiv0 : 2 * m / 2 = m := by omega
    have hdiv1 : (2 * m + 1) / 2 = m := by omega
    have step0 : ∀ acc : QuantOut, q4_wstep_low data i acc (2 * m) =
        QuantOut.mk
          (upd acc.weights (16 * i + m)
            ((acc.weights (16 * i + m) + data.getD (20 * i + 2 * m + 4) 0 % 16) % 256))
          acc.scales acc.biases := by
      intro acc
      simp only [q4_wstep_low, if_neg hne0, hdiv0]
    have step1 : ∀ acc : QuantOut, q4_wstep_low data i acc (2 * m + 1) =
        QuantOut.mk
          (upd acc.weights (16 * i + m)
            ((acc.weights (16 * i + m) +
              data.getD (20 * i + (2 * m + 1) + 4) 0 % 16 * 16 % 256) % 256))
          acc.scales acc.biases := by
      intro acc
      simp only [q4_wstep_low, if_pos hyes1, hdiv1]
    rw [h2m, List.range_succ, List.foldl_append, List.foldl_cons, List.foldl_nil,
      List.range_succ, List.foldl_append, List.foldl_cons, List.foldl_nil, step0, step1]
    refine ⟨hsc, hbi, ?_, ?_⟩
    · intro k hk
      have hkm : k ≠ 16 * i + m := hk m (by omega)
      simp only [upd, if_neg hkm]
      exact hout k (fun j hj => hk j (by omega))
    · intro j hj
      rcases Nat.lt_succ_iff_lt_or_eq.mp hj with hj' | hj'
      · have hne : (16 * i + j : Nat) ≠ 16 * i + m := by omega
        simp only [upd, if_neg hne]
        exact hin j hj'
      · subst hj'
        simp only [upd, if_pos]
        rw [hout (16 * i + j) (fun j' hj' => by omega)]
        omega

theorem q4_high_fold (data : List Nat) (i : Nat) (st : QuantOut) (m : Nat) (hm : m ≤ 8) :
    ((List.range (2 * m)).foldl (q4_wstep_high data i) st).scales = st.scales ∧
    ((List.range (2 * m)).foldl (q4_wstep_high data i) st).biases = st.biases ∧
    (∀ k, (∀ j, j < m → k ≠ 16 * i + 8 + j) →
      ((List.range (2 * m)).foldl (q4_wstep_high data i) st).weights k = st.weights k) ∧
    (∀ j, j < m →
      ((List.range (2 * m)).foldl (q4_wstep_high data i) st).weights (16 * i + 8 + j) =
        (st.weights (16 * i + 8 + j) + data.getD (20 * i + 2 * j + 4) 0 / 16 +
          data.getD (20 * i + (2 * j + 1) + 4) 0 / 16 * 16 % 256) % 256) := by
  induction m with
  | zero => simp
  | succ m ih =>
    obtain ⟨hsc, hbi, hout, hin⟩ := ih (by omega)
    have h2m : 2 * (m + 1) = 2 * m + 1 + 1 := by omega
    have hne0 : ¬ ((2 * m) % 2 ≠ 0) := by omega
    have hyes1 : (2 * m + 1) % 2 ≠ 0 := by omega
    have hdiv0 : 2 * m / 2 = m := by omega
    have hdiv1 : (2 * m + 1) / 2 = m := by omega
    have step0 : ∀ acc : QuantOut, q4_wstep_high data i acc (2 * m) =
        QuantOut.mk
          (upd acc.weights (16 * i + 8 + m)
            ((acc.weights (16 * i + 8 + m) + data.getD (20 * i + 2 * m + 4) 0 / 16) % 256))
          acc.scales acc.biases := by
      intro acc
      simp only [q4_wstep_high, if_neg hne0, hdiv0]
    have step1 : ∀ acc : QuantOut, q4_wstep_high data i acc (2 * m + 1) =
        QuantOut.mk
          (upd acc.weights (16 * i + 8 + m)
            ((acc.weights (16 * i + 8 + m) +
              data.getD (20 * i + (2 * m + 1) + 4) 0 / 16 * 16 % 256) % 256))
          acc.scales acc.biases := by
      intro acc
      simp only [q4_wstep_high, if_pos hyes1, hdiv1]
    rw [h2m, List.range_succ, List.foldl_append, List.foldl_cons, List.foldl_nil,
      List.range_succ, List.foldl_append, List.foldl_cons, List.foldl_nil, step0, step1]
    refine ⟨hsc, hbi, ?_, ?_⟩
    · intro k hk
      have hkm : k ≠ 16 * i + 8 + m := hk m (by omega)
      simp only [upd, if_neg hkm]
      exact hout k (fun j hj => hk j (by omega))
    · intro j hj
      rcases Nat.lt_succ_iff_lt_or_eq.mp hj with hj' | hj'
      · have hne : (16 * i + 8 + j : Nat) ≠ 16 * i + 8 + m := by omega
        simp only [upd, if_neg hne]
        exact hin j hj'
      · subst hj'
        simp only [upd, if_pos]
        rw [hout (16 * i + 8 + j) (fun j' hj' => by omega)]
        omega

theorem q4_1_block_spec (data : List Nat) (st : QuantOut) (i : Nat) :
    (q4_1_block data st i).scales i = read_u16le data (20 * i) ∧
    (q4_1_block data st i).biases i = read_u16le data (20 * i + 2) ∧
    (∀ j, j ≠ i → (q4_1_block data st i).scales j = st.scales j) ∧
    (∀ j, j ≠ i → (q4_1_block data st i).biases j = st.biases j) ∧
    (∀ k, (k < 16 * i ∨ 16 * i + 16 ≤ k) → (q4_1_block data st i).weights k = st.weights k) ∧
    (∀ j, j < 8 → (q4_1_block data st i).weights (16 * i + j) =
      (st.weights (16 * i + j) + data.getD (20 * i + 2 * j + 4) 0 % 16 +
        data.getD (20 * i + (2 * j + 1) + 4) 0 % 16 * 16) % 256) ∧
    (∀ j, j < 8 → (q4_1_block data st i).weights (16 * i + 8 + j) =
      (st.weights (16 * i + 8 + j) + data.getD (20 * i + 2 * j + 4) 0 / 16 +
        data.getD (20 * i + (2 * j + 1) + 4) 0 / 16 * 16 % 256) % 256) := by
  have h16 : (16 : Nat) = 2 * 8 := by norm_num
  rw [q4_1_block]
  set st0 : QuantOut :=
    { st with
      scales := upd st.scales i (read_u16le data (20 * i)),
      biases := upd st.biases i (read_u16le data (20 * i + 2)) } with hst0
  rw [h16]
  obtain ⟨lsc, lbi, lout, lin⟩ := q4_low_fold data i st0 8 (le_refl 8)
  set stL := (List.range (2 * 8)).foldl (q4_wstep_low data i) st0 with hstL
  obtain ⟨hsc, hbi, hout, hin⟩ := q4_high_fold data i stL 8 (le_refl 8)
  refine ⟨?_, ?_, ?_, ?_, ?_, ?_, ?_⟩
  · rw [hsc, lsc]; simp [hst0, upd]
  · rw [hbi, lbi]; simp [hst0, upd]
  · intro j hij; rw [hsc, lsc]; simp [hst0, upd, hij]
  · intro j hij; rw [hbi, lbi]; simp [hst0, upd, hij]
  · intro k hk
    rw [hout k (fun j hj => by omega), lout k (fun j hj => by omega)]
  · intro j hj
    rw [hout (16 * i + j) (fun j' hj' => by omega), lin j hj]
  · intro j hj
    rw [hin j hj, lout (16 * i + 8 + j) (fun j' hj' => by omega)]

theorem extract_q4_1_core_spec (data : List Nat) (nb : Nat) (init : QuantOut) :
    (∀ k, 16 * nb ≤ k → (extract_q4_1_core data nb init).weights k = init.weights k) ∧
    ∀ i, i < nb →
      (extract_q4_1_core data nb init).scales i = read_u16le data (20 * i) ∧
      (extract_q4_1_core data nb init).biases i = read_u16le data (20 * i + 2) ∧
      (∀ j, j < 8 → (extract_q4_1_core data nb init).weights (16 * i + j) =
        (init.weights (16 * i + j) + data.getD (20 * i + 2 * j + 4) 0 % 16 +
          data.getD (20 * i + (2 * j + 1) + 4) 0 % 16 * 16) % 256) ∧
      (∀ j, j < 8 → (extract_q4_1_core data nb init).weights (16 * i + 8 + j) =
        (init.weights (16 * i + 8 + j) + data.getD (20 * i + 2 * j + 4) 0 / 16 +
          data.getD (20 * i + (2 * j + 1) + 4) 0 / 16 * 16 % 256) % 256) := by
  induction nb with
  | zero => exact ⟨fun k _ => rfl, fun i hi => absurd hi (by omega)⟩
  | succ nb ih =>
    obtain ⟨ihframe, ihvals⟩ := ih
    unfold extract_q4_1_core at *
    rw [List.range_succ, List.foldl_append, List.foldl_cons, List.foldl_nil]
    obtain ⟨bsc, bbi, bsco, bbio, bwo, blow, bhigh⟩ :=
      q4_1_block_spec data ((List.range nb).foldl (q4_1_block data) init) nb
    constructor
    · intro k hk
      rw [bwo k (by omega)]
      exact ihframe k (by omega)
    · intro i hi
      rcases Nat.lt_succ_iff_lt_or_eq.mp hi with hlt | heq
      · obtain ⟨hs, hb, hlow', hhigh'⟩ := ihvals i hlt
        refine ⟨?_, ?_, ?_, ?_⟩
        · rw [bsco i (by omega), hs]
        · rw [bbio i (by omega), hb]
        · intro j hj
          rw [bwo (16 * i + j) (Or.inl (by omega)), hlow' j hj]
        · intro j hj
          rw [bwo (16 * i + 8 + j) (Or.inl (by omega)), hhigh' j hj]
      · subst heq
        refine ⟨bsc, bbi, ?_, ?_⟩
        · intro j hj
          rw [blow j hj, ihframe (16 * i + j) (by omega)]
        · intro j hj
          rw [bhigh j hj, ihframe (16 * i + 8 + j) (by omega)]

theorem getD_lt_256 (data : List Nat) (hb : ∀ b ∈ data, b < 256) (k : Nat) :
    data.getD k 0 < 256 := by
  by_cases h : k < data.length
  · rw [List.getD_eq_getElem data 0 h]
    exact hb _ (List.getElem_mem h)
  · rw [List.getD_eq_default data 0 (by omega)]
    norm_num

/-- C10: `extract_q4_1_data` accumulates nibbles into the weights buffer
with `+=` (visible as the additions in `q4_wstep_low`/`q4_wstep_high`), so
its output is only correct when the freshly allocated buffer starts out
zeroed.  Under that precondition (`hzero`), for every block `i` of a tensor
whose last dimension is a multiple of 32: output byte `i*16 + k` (k < 8)
holds the low nibbles of weight bytes `2k` and `2k+1` of the block (low
nibble of byte `2k` in the low half, low nibble of byte `2k+1` shifted
high), output byte `i*16 + 8 + k` holds the corresponding high-nibble pair,
and `scales[i]`/`biases[i]` are the two leading half-precision bit patterns
of the 20-byte block. -/
theorem C10_q4_1_block_semantics (t : GgufTensor) (init : QuantOut) (i : Nat)
    (hzero : ∀ k, init.weights k = 0)
    (hbytes : ∀ b ∈ t.weights_data, b < 256)
    (hlast : (get_shape t).getD ((get_shape t).length - 1) 0 % 32 = 0)
    (hi : i < t.num_weights / 32) :
    ∃ out, extract_q4_1_data init t = .ok out ∧
      out.scales i = read_u16le t.weights_data (20 * i) ∧
      out.biases i = read_u16le t.weights_data (20 * i + 2) ∧
      (∀ k, k < 8 → out.weights (16 * i + k) =
        t.weights_data.getD (20 * i + 2 * k + 4) 0 % 16 +
          16 * (t.weights_data.getD (20 * i + (2 * k + 1) + 4) 0 % 16)) ∧
      (∀ k, k < 8 → out.weights (16 * i + 8 + k) =
        t.weights_data.getD (20 * i + 2 * k + 4) 0 / 16 +
          16 * (t.weights_data.getD (20 * i + (2 * k + 1) + 4) 0 / 16)) := by
  obtain ⟨_, hvals⟩ := extract_q4_1_core_spec t.weights_data (t.num_weights / 32) init
  obtain ⟨hs, hb, hlow, hhigh⟩ := hvals i hi
  refine ⟨extract_q4_1_core t.weights_data (t.num_weights / 32) init, ?_, hs, hb, ?_, ?_⟩
  · have hcond : ¬ ((get_shape t).getD ((get_shape t).length - 1) 0 % 32 ≠ 0) := by
      rw [hlast]; exact fun h => h rfl
    rw [extract_q4_1_data, if_neg hcond]
  · intro k hk
    rw [hlow k hk, hzero]
    have h1 := getD_lt_256 t.weights_data hbytes (20 * i + 2 * k + 4)
    have h2 := getD_lt_256 t.weights_data hbytes (20 * i + (2 * k + 1) + 4)
    omega
  · intro k hk
    rw [hhigh k hk, hzero]
    have h1 := getD_lt_256 t.weights_data hbytes (20 * i + 2 * k + 4)
    have h2 := getD_lt_256 t.weights_data hbytes (20 * i + (2 * k + 1) + 4)
    omega

theorem C10_witness :
    (∀ k, (fun _ : Nat => 0) k = 0) ∧
    (∀ b ∈ ([0, 60, 0, 180] ++ List.range 16 : List Nat), b < 256) ∧
    ∃ out, extract_q4_1_data ⟨fun _ => 0, fun _ => 0, fun _ => 0⟩
        ⟨"w.weight", [32], .Q4_1, 32, 20, [0, 60, 0, 180] ++ List.range 16⟩ = .ok out ∧
      out.scales 0 = read_u16le ([0, 60, 0, 180] ++ List.range 16) (20 * 0) ∧
      out.biases 0 = read_u16le ([0, 60, 0, 180] ++ List.range 16) (20 * 0 + 2) ∧
      (∀ k, k < 8 → out.weights (16 * 0 + k) =
        ([0, 60, 0, 180] ++ List.range 16 : List Nat).getD (20 * 0 + 2 * k + 4) 0 % 16 +
          16 * (([0, 60, 0, 180] ++ List.range 16 : List Nat).getD (20 * 0 + (2 * k + 1) + 4) 0 % 16)) ∧
      (∀ k, k < 8 → out.weights (16 * 0 + 8 + k) =
        ([0, 60, 0, 180] ++ List.range 16 : List Nat).getD (20 * 0 + 2 * k + 4) 0 / 16 +
          16 * (([0, 60, 0, 180] ++ List.range 16 : List Nat).getD (20 * 0 + (2 * k + 1) + 4) 0 / 16)) :=
  ⟨fun k => rfl, by decide,
    C10_q4_1_block_semantics
      ⟨"w.weight", [32], .Q4_1, 32, 20, [0, 60, 0, 180] ++ List.range 16⟩
      ⟨fun _ => 0, fun _ => 0, fun _ => 0⟩ 0 (fun k => rfl) (by decide) (by decide) (by decide)⟩

end MlxGguf
